import Mathlib

/-!
Shallow embedding of the adaptive multiplication-quiz engine from
`src/index.tsx` (difficulty selection, question generation, answer
evaluation, score/streak bookkeeping), together with theorems checking
the specification's claims about it.

Randomness: every `Math.random()`-derived draw in the source is modelled
by consuming one value from an explicit stream of natural numbers
(`Rng`); `Math.floor(Math.random() * n)` becomes `value % n`, which has
exactly the support `[0, n-1]`, and a `< 0.5` / `> 0.5` coin flip
becomes a parity test.  The two rejection loops of the source (the
repeat-until-not-repeated operand loop and the grow-until-4 options
loop) receive explicit fuel and return `none` on exhaustion, so every
definition here is total and executable.
-/

namespace RobuxMul

/-- The three selectable tiers (`enum Difficulty` in the source). -/
inductive Difficulty where
  | Easy
  | Moderate
  | Hard
deriving DecidableEq, Repr

/-- The `Question` interface of the source: two operands, their product,
and the four multiple-choice options. -/
structure Question where
  num1 : ℕ
  num2 : ℕ
  answer : ℤ
  options : List ℤ
deriving DecidableEq, Repr

/-- Source of randomness: a stream of natural numbers and a cursor. -/
structure Rng where
  src : ℕ → ℕ
  pos : ℕ

/-- Consume one raw value from the stream. -/
def Rng.next (g : Rng) : ℕ × Rng :=
  (g.src g.pos, { g with pos := g.pos + 1 })

/-- Models `Math.floor(Math.random() * n)`: a value in `[0, n-1]` (for `n > 0`). -/
def randNat (n : ℕ) (g : Rng) : ℕ × Rng :=
  let r := g.next
  (r.1 % n, r.2)

/-- Models a coin flip (`Math.random() < 0.5`, or `> 0.5`). -/
def randBool (g : Rng) : Bool × Rng :=
  let r := g.next
  (r.1 % 2 == 0, r.2)

/-- Models `Math.ceil(Math.random() * 3)`: support `{0, 1, 2, 3}`
(0 only when the underlying draw is exactly 0). -/
def randCeil3 (g : Rng) : ℕ × Rng :=
  let r := g.next
  (r.1 % 4, r.2)

/-- `getPenalty` from the source: the wrong-answer penalty for the
current score band. -/
def getPenalty (score : ℤ) : ℤ :=
  if score ≥ 930 then 8
  else if score ≥ 800 then 5
  else if score ≥ 700 then 4
  else 2

/-- Priority 1 of `generateQuestion` (score ≥ 800): one operand from
`highFactors = [6,7,8,9]`, the other `Math.floor(Math.random()*7)+6`,
then a coin-flip swap. -/
def highScoreDraw (g : Rng) : (ℕ × ℕ) × Rng :=
  let highFactors : List ℕ := [6, 7, 8, 9]
  let i := randNat highFactors.length g
  let num1 := highFactors.getD i.1 0
  let r := randNat 7 i.2
  let num2 := r.1 + 6
  let sw := randBool r.2
  (if sw.1 then (num2, num1) else (num1, num2), sw.2)

/-- Priority 2 of `generateQuestion` (Hard tier): both operands from
`factors = [6,7,8,9]`. -/
def hardDraw (g : Rng) : (ℕ × ℕ) × Rng :=
  let factors : List ℕ := [6, 7, 8, 9]
  let i := randNat factors.length g
  let num1 := factors.getD i.1 0
  let j := randNat factors.length i.2
  let num2 := factors.getD j.1 0
  ((num1, num2), j.2)

/-- Priority 2 of `generateQuestion` (Moderate tier): one operand from
`factors = [4,5,6,7]`, the other `Math.floor(Math.random()*10)+1`,
then a coin-flip swap. -/
def moderateDraw (g : Rng) : (ℕ × ℕ) × Rng :=
  let factors : List ℕ := [4, 5, 6, 7]
  let i := randNat factors.length g
  let num1 := factors.getD i.1 0
  let r := randNat 10 i.2
  let num2 := r.1 + 1
  let sw := randBool r.2
  (if sw.1 then (num2, num1) else (num1, num2), sw.2)

/-- Priority 3 of `generateQuestion` (Easy tier, fewer than 30 correct
answers): one factor is 2 or 3 by coin flip, the other
`Math.floor(Math.random()*10)+1`, random order. -/
def easyIntroDraw (g : Rng) : (ℕ × ℕ) × Rng :=
  let c1 := randBool g
  let factor1 : ℕ := if c1.1 then 2 else 3
  let r := randNat 10 c1.2
  let factor2 := r.1 + 1
  let c2 := randBool r.2
  (if c2.1 then (factor1, factor2) else (factor2, factor1), c2.2)

/-- `baseMaxNum` of the fallback branch: Easy 4, Moderate 7, Hard 10. -/
def baseMaxNum (d : Difficulty) : ℤ :=
  match d with
  | .Easy => 4
  | .Moderate => 7
  | .Hard => 10

/-- `effectiveLevel = difficultyLevel + Math.floor(correctStreak / 3) +
(robuxScore >= 500 ? 2 : 0)` from the fallback branch. -/
def effectiveLevel (difficultyLevel : ℤ) (correctStreak : ℕ) (score : ℤ) : ℤ :=
  difficultyLevel + ((correctStreak / 3 : ℕ) : ℤ) + (if score ≥ 500 then 2 else 0)

/-- The fallback branch of `generateQuestion`: draw `num1` from
`[1, baseMaxNum + effectiveLevel]`, `num2` from
`[1, baseMaxNum + max 0 (effectiveLevel - 2)]`; if both land on 1,
redraw `num2` as `Math.floor(Math.random()*9)+2`. -/
def fallbackDraw (d : Difficulty) (score : ℤ) (correctStreak : ℕ)
    (difficultyLevel : ℤ) (g : Rng) : (ℕ × ℕ) × Rng :=
  let maxNum1 := baseMaxNum d + effectiveLevel difficultyLevel correctStreak score
  let maxNum2 := baseMaxNum d + max 0 (effectiveLevel difficultyLevel correctStreak score - 2)
  let r1 := randNat maxNum1.toNat g
  let num1 := r1.1 + 1
  let r2 := randNat maxNum2.toNat r1.2
  let num2 := r2.1 + 1
  if num1 = 1 ∧ num2 = 1 then
    let r3 := randNat 9 r2.2
    ((num1, r3.1 + 2), r3.2)
  else
    ((num1, num2), r2.2)

/-- One pass through the priority-ordered rule cascade of
`generateQuestion` (the body of its `do` loop, before post-processing). -/
def drawOperands (d : Difficulty) (score : ℤ) (correctAnswersCount correctStreak : ℕ)
    (difficultyLevel : ℤ) (g : Rng) : (ℕ × ℕ) × Rng :=
  if score ≥ 800 then highScoreDraw g
  else if d = .Hard then hardDraw g
  else if d = .Moderate then moderateDraw g
  else if d = .Easy ∧ correctAnswersCount < 30 then easyIntroDraw g
  else fallbackDraw d score correctStreak difficultyLevel g

/-- The score ≥ 100 post-processing: an operand equal to 1 is replaced by
`Math.floor(Math.random()*3)+2`, i.e. a draw from `{2,3,4}`. -/
def replaceOne (n : ℕ) (g : Rng) : ℕ × Rng :=
  if n = 1 then
    let r := randNat 3 g
    (r.1 + 2, r.2)
  else (n, g)

/-- Post-processing of `generateQuestion`: once score ≥ 100, replace any
operand equal to 1. -/
def fixOnes (score : ℤ) (p : ℕ × ℕ) (g : Rng) : (ℕ × ℕ) × Rng :=
  if score ≥ 100 then
    let a := replaceOne p.1 g
    let b := replaceOne p.2 a.2
    ((a.1, b.1), b.2)
  else (p, g)

/-- One full iteration of the operand loop: rule cascade, then
post-processing. -/
def drawAndFix (d : Difficulty) (score : ℤ) (correctAnswersCount correctStreak : ℕ)
    (difficultyLevel : ℤ) (g : Rng) : (ℕ × ℕ) × Rng :=
  let p := drawOperands d score correctAnswersCount correctStreak difficultyLevel g
  fixOnes score p.1 p.2

/-- The `isRepeated` test of the source: the candidate pair equals the
previous pair in given or swapped order. -/
def isRepeatOf (last : Option (ℕ × ℕ)) (p : ℕ × ℕ) : Bool :=
  match last with
  | none => false
  | some q => decide ((p.1 = q.1 ∧ p.2 = q.2) ∨ (p.1 = q.2 ∧ p.2 = q.1))

/-- The `do ... while (isRepeated)` operand loop, with explicit fuel. -/
def genOperands (fuel : ℕ) (d : Difficulty) (score : ℤ)
    (correctAnswersCount correctStreak : ℕ) (difficultyLevel : ℤ)
    (last : Option (ℕ × ℕ)) (g : Rng) : Option ((ℕ × ℕ) × Rng) :=
  match fuel with
  | 0 => none
  | fuel + 1 =>
    let pg := drawAndFix d score correctAnswersCount correctStreak difficultyLevel g
    if isRepeatOf last pg.1 then
      genOperands fuel d score correctAnswersCount correctStreak difficultyLevel last pg.2
    else some pg

/-- One candidate distractor, exactly as in the `while (options.size < 4)`
loop body: `answer + offset * multiplier` with `offset` in `[-5, 4]` and
the multiplier a coin-flip choice of `num1`/`num2`; if that collides with
`answer` or is nonpositive, the fallback formula
`answer + size * (coin-flip sign) * (Math.ceil(Math.random()*3) + 1)`,
and finally `answer + size + 1` if the fallback is still bad. -/
def nextDistractor (answer : ℤ) (num1 num2 : ℕ) (size : ℕ) (g : Rng) : ℤ × Rng :=
  let ro := randNat 10 g
  let wrongAnswerOffset : ℤ := (ro.1 : ℤ) - 5
  let cm := randBool ro.2
  let wrongAnswerMultiplier : ℤ := if cm.1 then (num1 : ℤ) else (num2 : ℤ)
  let wrongAnswer := answer + wrongAnswerOffset * wrongAnswerMultiplier
  if wrongAnswer = answer ∨ wrongAnswer ≤ 0 then
    let sg := randBool cm.2
    let ce := randCeil3 sg.2
    let wrongAnswer2 := answer + (size : ℤ) * (if sg.1 then 1 else -1) * ((ce.1 : ℤ) + 1)
    if wrongAnswer2 ≤ 0 ∨ wrongAnswer2 = answer then (answer + (size : ℤ) + 1, ce.2)
    else (wrongAnswer2, ce.2)
  else (wrongAnswer, cm.2)

/-- The `while (options.size < 4)` loop, with explicit fuel.  The JS `Set`
is modelled as a duplicate-free list in insertion order: adding an
element already present is a no-op, a new element is appended. -/
def buildOptions (fuel : ℕ) (answer : ℤ) (num1 num2 : ℕ) (acc : List ℤ)
    (g : Rng) : Option (List ℤ × Rng) :=
  match fuel with
  | 0 => if 4 ≤ acc.length then some (acc, g) else none
  | fuel + 1 =>
    if 4 ≤ acc.length then some (acc, g)
    else
      let wg := nextDistractor answer num1 num2 acc.length g
      let acc' := if wg.1 ∈ acc then acc else acc ++ [wg.1]
      buildOptions fuel answer num1 num2 acc' wg.2

/-- Random permutation: the source's
`Array.from(options).sort(() => Math.random() - 0.5)` randomizes the
order of the four options; it is modelled by repeatedly extracting a
randomly chosen position. -/
def shuffleAux (fuel : ℕ) (l : List ℤ) (g : Rng) : List ℤ × Rng :=
  match fuel with
  | 0 => (l, g)
  | fuel + 1 =>
    if l.isEmpty then (l, g)
    else
      let ig := randNat l.length g
      let rest := shuffleAux fuel (l.eraseIdx ig.1) ig.2
      (l.getD ig.1 0 :: rest.1, rest.2)

/-- Shuffle a list of options. -/
def shuffleList (l : List ℤ) (g : Rng) : List ℤ × Rng :=
  shuffleAux l.length l g

/-- `generateQuestion` from the source: run the operand loop, compute
`answer = num1 * num2`, seed the option set with `answer`, grow it to 4
members, and shuffle.  `none` only on fuel exhaustion of one of the two
rejection loops (which the source runs unboundedly). -/
def generateQuestion (fuel optFuel : ℕ) (d : Difficulty) (score : ℤ)
    (correctAnswersCount correctStreak : ℕ) (difficultyLevel : ℤ)
    (last : Option (ℕ × ℕ)) (g : Rng) : Option Question :=
  (genOperands fuel d score correctAnswersCount correctStreak difficultyLevel last g).bind
    fun pg =>
      let num1 := pg.1.1
      let num2 := pg.1.2
      let answer : ℤ := (num1 : ℤ) * (num2 : ℤ)
      (buildOptions optFuel answer num1 num2 [answer] pg.2).map
        fun og =>
          { num1 := num1, num2 := num2, answer := answer,
            options := (shuffleList og.1 og.2).1 }

/-- The per-session state of `GameScreen` (plus the app-level
`robuxScore`), as far as the engine logic reads and writes it.
`feedback` mirrors `{ incorrectSelection?: number }`: `none` is the empty
object, `some v` records the wrongly submitted value, where the inner
`Option ℤ` models a JS number that may be `NaN` (`none`). -/
structure GState where
  score : ℤ
  correctStreak : ℕ
  wrongStreak : ℕ
  correctAnswersCount : ℕ
  difficultyLevel : ℤ
  feedback : Option (Option ℤ)
  isAnswered : Bool
deriving DecidableEq, Repr

/-- Initial difficulty level set by the `useEffect` on tier selection:
Easy 0, Moderate 2, Hard 5. -/
def initialDifficultyLevel (d : Difficulty) : ℤ :=
  match d with
  | .Easy => 0
  | .Moderate => 2
  | .Hard => 5

/-- Session-start state: score 0, both streaks 0, count 0, tier-derived
difficulty level, no feedback, question unanswered. -/
def initialState (d : Difficulty) : GState :=
  { score := 0, correctStreak := 0, wrongStreak := 0, correctAnswersCount := 0,
    difficultyLevel := initialDifficultyLevel d, feedback := none, isAnswered := false }

/-- The `useEffect` on `wrongStreak`: every positive multiple of 3
decrements `difficultyLevel`, floored at 0.  It runs after each answer
evaluation (it is a no-op whenever `wrongStreak` was left at 0). -/
def applyWrongStreakRule (s : GState) : GState :=
  if s.wrongStreak > 0 ∧ s.wrongStreak % 3 = 0 then
    { s with difficultyLevel := max 0 (s.difficultyLevel - 1) }
  else s

/-- The correct-answer branch shared by `handleAnswer` and
`handleTypedAnswerSubmit`: +5 score, streak bookkeeping, clear feedback. -/
def evalCorrect (s : GState) : GState :=
  { s with score := s.score + 5,
           correctStreak := s.correctStreak + 1,
           correctAnswersCount := s.correctAnswersCount + 1,
           wrongStreak := 0,
           feedback := none }

/-- The wrong-answer branch shared by both handlers: clamp the penalized
score at 0, streak bookkeeping, record the submitted value. -/
def evalWrong (submitted : Option ℤ) (s : GState) : GState :=
  { s with score := max 0 (s.score - getPenalty s.score),
           correctStreak := 0,
           wrongStreak := s.wrongStreak + 1,
           feedback := some submitted }

/-- `handleAnswer` (multiple-choice path): no-op when the current
question is already answered; otherwise mark answered, evaluate, and run
the wrong-streak effect. -/
def handleAnswer (q : Question) (selectedOption : ℤ) (s : GState) : GState :=
  if s.isAnswered then s
  else
    let s1 := { s with isAnswered := true }
    applyWrongStreakRule
      (if selectedOption = q.answer then evalCorrect s1
       else evalWrong (some selectedOption) s1)

/-- JS whitespace, as relevant to `String.prototype.trim` and `parseInt`. -/
def jsSpace (c : Char) : Bool :=
  (c == ' ') || (c == '\t') || (c == '\n') || (c == '\r')

/-- The guard `!typedAnswer.trim()`: true exactly when the string trims
to the empty string, i.e. consists only of whitespace. -/
def isBlank (t : String) : Bool :=
  t.data.all jsSpace

/-- Decimal digit value. -/
def digitVal (c : Char) : ℕ := c.toNat - 48

/-- The longest leading run of decimal digits, or `none` if there is
none (which is what makes `parseInt` return `NaN`). -/
def parseDigits (cs : List Char) : Option ℕ :=
  let ds := cs.takeWhile Char.isDigit
  if ds.isEmpty then none
  else some (ds.foldl (fun a c => a * 10 + digitVal c) 0)

/-- `parseInt(s, 10)`: skip leading whitespace, read an optional sign and
then leading digits, ignoring any trailing garbage; `none` models `NaN`. -/
def parseIntJS (t : String) : Option ℤ :=
  let cs := t.data.dropWhile jsSpace
  match cs with
  | '-' :: rest => (parseDigits rest).map (fun n => -(n : ℤ))
  | '+' :: rest => (parseDigits rest).map (fun n => (n : ℤ))
  | _ => (parseDigits cs).map (fun n => (n : ℤ))

/-- `handleTypedAnswerSubmit` (free-text path used once score ≥ 900):
no-op when already answered or when the text is blank; otherwise parse
with `parseInt` and compare with `===` (a `NaN` result compares unequal
to everything). -/
def handleTypedAnswerSubmit (q : Question) (typedAnswer : String) (s : GState) : GState :=
  if s.isAnswered || isBlank typedAnswer then s
  else
    let s1 := { s with isAnswered := true }
    let userAnswer := parseIntJS typedAnswer
    applyWrongStreakRule
      (if userAnswer = some q.answer then evalCorrect s1
       else evalWrong userAnswer s1)

/-! ### Helper lemmas -/

theorem getD_highFactors : ∀ i < 4, ([6,7,8,9] : List ℕ).getD i 0 ∈ ([6,7,8,9] : List ℕ) := by
  decide

theorem getD_modFactors : ∀ i < 4, ([4,5,6,7] : List ℕ).getD i 0 ∈ ([4,5,6,7] : List ℕ) := by
  decide

theorem applyWrongStreakRule_score (s : GState) :
    (applyWrongStreakRule s).score = s.score := by
  unfold applyWrongStreakRule; split <;> rfl

theorem applyWrongStreakRule_correctStreak (s : GState) :
    (applyWrongStreakRule s).correctStreak = s.correctStreak := by
  unfold applyWrongStreakRule; split <;> rfl

theorem applyWrongStreakRule_wrongStreak (s : GState) :
    (applyWrongStreakRule s).wrongStreak = s.wrongStreak := by
  unfold applyWrongStreakRule; split <;> rfl

theorem applyWrongStreakRule_isAnswered (s : GState) :
    (applyWrongStreakRule s).isAnswered = s.isAnswered := by
  unfold applyWrongStreakRule; split <;> rfl

theorem applyWrongStreakRule_feedback (s : GState) :
    (applyWrongStreakRule s).feedback = s.feedback := by
  unfold applyWrongStreakRule; split <;> rfl

/-- Extracting the element at a valid index and consing it onto the rest
is a permutation of the original list. -/
theorem perm_getD_cons_eraseIdx :
    ∀ (l : List ℤ) (i : ℕ), i < l.length → List.Perm (l.getD i 0 :: l.eraseIdx i) l := by
  intro l
  induction l with
  | nil => intro i h; simp at h
  | cons x xs ih =>
    intro i h
    cases i with
    | zero => simp
    | succ i =>
      have h' : i < xs.length := by simpa using h
      simp only [List.getD_cons_succ, List.eraseIdx_cons_succ]
      exact (List.Perm.swap x (xs.getD i 0) _).trans ((ih i h').cons x)

/-- The shuffle returns a permutation of its input. -/
theorem shuffleAux_perm : ∀ (fuel : ℕ) (l : List ℤ) (g : Rng),
    List.Perm (shuffleAux fuel l g).1 l := by
  intro fuel
  induction fuel with
  | zero => intro l g; exact List.Perm.refl l
  | succ fuel ih =>
    intro l g
    unfold shuffleAux
    split
    · exact List.Perm.refl l
    · next hne =>
      have hlen : 0 < l.length := by
        cases l with
        | nil => simp at hne
        | cons a t => simp
      have hidx : (randNat l.length g).1 < l.length := by
        unfold randNat Rng.next
        exact Nat.mod_lt _ hlen
      simpa using
        ((ih (l.eraseIdx (randNat l.length g).1) (randNat l.length g).2).cons
          (l.getD (randNat l.length g).1 0)).trans
          (perm_getD_cons_eraseIdx l (randNat l.length g).1 hidx)

theorem shuffleList_perm (l : List ℤ) (g : Rng) :
    List.Perm (shuffleList l g).1 l :=
  shuffleAux_perm l.length l g

/-- The score-override rule yields one operand in `{6,7,8,9}` and the
other in `[6,12]`, in one of the two orders. -/
theorem highScoreDraw_spec (g : Rng) :
    ((highScoreDraw g).1.1 ∈ ([6,7,8,9] : List ℕ) ∧
      6 ≤ (highScoreDraw g).1.2 ∧ (highScoreDraw g).1.2 ≤ 12) ∨
    ((highScoreDraw g).1.2 ∈ ([6,7,8,9] : List ℕ) ∧
      6 ≤ (highScoreDraw g).1.1 ∧ (highScoreDraw g).1.1 ≤ 12) := by
  have h4 : g.src g.pos % 4 < 4 := Nat.mod_lt _ (by norm_num)
  have h7 : g.src (g.pos + 1) % 7 < 7 := Nat.mod_lt _ (by norm_num)
  have hmem := getD_highFactors _ h4
  simp only [highScoreDraw, randNat, randBool, Rng.next]
  split
  · right
    simp only [List.length_cons, List.length_nil]
    exact ⟨hmem, by omega, by omega⟩
  · left
    simp only [List.length_cons, List.length_nil]
    exact ⟨hmem, by omega, by omega⟩

theorem hardDraw_spec (g : Rng) :
    (hardDraw g).1.1 ∈ ([6,7,8,9] : List ℕ) ∧
    (hardDraw g).1.2 ∈ ([6,7,8,9] : List ℕ) := by
  have h4 : g.src g.pos % 4 < 4 := Nat.mod_lt _ (by norm_num)
  have h4' : g.src (g.pos + 1) % 4 < 4 := Nat.mod_lt _ (by norm_num)
  have hmem := getD_highFactors _ h4
  have hmem' := getD_highFactors _ h4'
  simp only [hardDraw, randNat, Rng.next, List.length_cons, List.length_nil]
  exact ⟨hmem, hmem'⟩

theorem moderateDraw_spec (g : Rng) :
    ((moderateDraw g).1.1 ∈ ([4,5,6,7] : List ℕ) ∧
      1 ≤ (moderateDraw g).1.2 ∧ (moderateDraw g).1.2 ≤ 10) ∨
    ((moderateDraw g).1.2 ∈ ([4,5,6,7] : List ℕ) ∧
      1 ≤ (moderateDraw g).1.1 ∧ (moderateDraw g).1.1 ≤ 10) := by
  have h4 : g.src g.pos % 4 < 4 := Nat.mod_lt _ (by norm_num)
  have h10 : g.src (g.pos + 1) % 10 < 10 := Nat.mod_lt _ (by norm_num)
  have hmem := getD_modFactors _ h4
  simp only [moderateDraw, randNat, randBool, Rng.next]
  split
  · right
    simp only [List.length_cons, List.length_nil]
    exact ⟨hmem, by omega, by omega⟩
  · left
    simp only [List.length_cons, List.length_nil]
    exact ⟨hmem, by omega, by omega⟩

theorem easyIntroDraw_spec (g : Rng) :
    (((easyIntroDraw g).1.1 = 2 ∨ (easyIntroDraw g).1.1 = 3) ∧
      1 ≤ (easyIntroDraw g).1.2 ∧ (easyIntroDraw g).1.2 ≤ 10) ∨
    (((easyIntroDraw g).1.2 = 2 ∨ (easyIntroDraw g).1.2 = 3) ∧
      1 ≤ (easyIntroDraw g).1.1 ∧ (easyIntroDraw g).1.1 ≤ 10) := by
  have h10 : g.src (g.pos + 1) % 10 < 10 := Nat.mod_lt _ (by norm_num)
  simp only [easyIntroDraw, randNat, randBool, Rng.next]
  split
  · left
    exact ⟨by split <;> simp, by omega, by omega⟩
  · right
    exact ⟨by split <;> simp, by omega, by omega⟩

theorem fallbackDraw_pos (d : Difficulty) (score : ℤ) (cs : ℕ) (lvl : ℤ) (g : Rng) :
    1 ≤ (fallbackDraw d score cs lvl g).1.1 ∧ 1 ≤ (fallbackDraw d score cs lvl g).1.2 := by
  simp only [fallbackDraw, randNat, Rng.next]
  split <;> (simp only []; exact ⟨by omega, by omega⟩)

theorem mem_highFactors_pos {n : ℕ} (h : n ∈ ([6,7,8,9] : List ℕ)) : 1 ≤ n := by
  fin_cases h <;> norm_num

theorem mem_modFactors_pos {n : ℕ} (h : n ∈ ([4,5,6,7] : List ℕ)) : 1 ≤ n := by
  fin_cases h <;> norm_num

/-- Every rule of the cascade produces operands that are at least 1. -/
theorem drawOperands_pos (d : Difficulty) (score : ℤ) (cac cs : ℕ) (lvl : ℤ) (g : Rng) :
    1 ≤ (drawOperands d score cac cs lvl g).1.1 ∧
    1 ≤ (drawOperands d score cac cs lvl g).1.2 := by
  unfold drawOperands
  split
  · rcases highScoreDraw_spec g with ⟨h1, h2, _⟩ | ⟨h1, h2, _⟩
    · exact ⟨mem_highFactors_pos h1, by omega⟩
    · exact ⟨by omega, mem_highFactors_pos h1⟩
  split
  · rcases hardDraw_spec g with ⟨h1, h2⟩
    exact ⟨mem_highFactors_pos h1, mem_highFactors_pos h2⟩
  split
  · rcases moderateDraw_spec g with ⟨h1, h2, _⟩ | ⟨h1, h2, _⟩
    · exact ⟨mem_modFactors_pos h1, by omega⟩
    · exact ⟨by omega, mem_modFactors_pos h1⟩
  split
  · rcases easyIntroDraw_spec g with ⟨h1, h2, _⟩ | ⟨h1, h2, _⟩
    · exact ⟨by omega, by omega⟩
    · exact ⟨by omega, by omega⟩
  · exact fallbackDraw_pos d score cs lvl g

/-- The post-processing replacement never returns 1. -/
theorem replaceOne_ne_one (n : ℕ) (g : Rng) : (replaceOne n g).1 ≠ 1 := by
  unfold replaceOne randNat Rng.next
  split
  · simp
  · next h => simpa using h

/-- The post-processing replacement preserves positivity. -/
theorem replaceOne_pos {n : ℕ} (h : 1 ≤ n) (g : Rng) : 1 ≤ (replaceOne n g).1 := by
  unfold replaceOne randNat Rng.next
  split
  · simp
  · simpa using h

/-- When a 1 is replaced, the replacement lies in `{2,3,4}`. -/
theorem replaceOne_one_mem (g : Rng) : (replaceOne 1 g).1 ∈ ([2,3,4] : List ℕ) := by
  have h3 : g.src g.pos % 3 < 3 := Nat.mod_lt _ (by norm_num)
  unfold replaceOne randNat Rng.next
  simp only [if_pos rfl]
  interval_cases h : g.src g.pos % 3 <;> simp

theorem fixOnes_pos {p : ℕ × ℕ} (h1 : 1 ≤ p.1) (h2 : 1 ≤ p.2) (score : ℤ) (g : Rng) :
    1 ≤ (fixOnes score p g).1.1 ∧ 1 ≤ (fixOnes score p g).1.2 := by
  unfold fixOnes
  split
  · exact ⟨replaceOne_pos h1 g, replaceOne_pos h2 _⟩
  · exact ⟨h1, h2⟩

/-- Once score ≥ 100, post-processed operands are never 1. -/
theorem fixOnes_ne_one (p : ℕ × ℕ) (g : Rng) {score : ℤ} (h : score ≥ 100) :
    (fixOnes score p g).1.1 ≠ 1 ∧ (fixOnes score p g).1.2 ≠ 1 := by
  unfold fixOnes
  rw [if_pos h]
  exact ⟨replaceOne_ne_one _ _, replaceOne_ne_one _ _⟩

theorem drawAndFix_pos (d : Difficulty) (score : ℤ) (cac cs : ℕ) (lvl : ℤ) (g : Rng) :
    1 ≤ (drawAndFix d score cac cs lvl g).1.1 ∧
    1 ≤ (drawAndFix d score cac cs lvl g).1.2 := by
  unfold drawAndFix
  exact fixOnes_pos (drawOperands_pos d score cac cs lvl g).1
    (drawOperands_pos d score cac cs lvl g).2 score _

/-- A successful run of the operand loop is one iteration's output for
some state of the random stream. -/
theorem genOperands_exists_draw :
    ∀ (fuel : ℕ) (d : Difficulty) (score : ℤ) (cac cs : ℕ) (lvl : ℤ)
      (last : Option (ℕ × ℕ)) (g : Rng) (pr : (ℕ × ℕ) × Rng),
      genOperands fuel d score cac cs lvl last g = some pr →
      ∃ g0, drawAndFix d score cac cs lvl g0 = pr := by
  intro fuel
  induction fuel with
  | zero => intro d score cac cs lvl last g pr h; simp [genOperands] at h
  | succ fuel ih =>
    intro d score cac cs lvl last g pr h
    unfold genOperands at h
    simp only [] at h
    split at h
    · exact ih d score cac cs lvl last _ pr h
    · exact ⟨g, by simpa using h⟩

/-- A successful run of the operand loop never returns a repeat of the
previous pair. -/
theorem genOperands_not_repeat :
    ∀ (fuel : ℕ) (d : Difficulty) (score : ℤ) (cac cs : ℕ) (lvl : ℤ)
      (last : Option (ℕ × ℕ)) (g : Rng) (pr : (ℕ × ℕ) × Rng),
      genOperands fuel d score cac cs lvl last g = some pr →
      isRepeatOf last pr.1 = false := by
  intro fuel
  induction fuel with
  | zero => intro d score cac cs lvl last g pr h; simp [genOperands] at h
  | succ fuel ih =>
    intro d score cac cs lvl last g pr h
    unfold genOperands at h
    simp only [] at h
    split at h
    · exact ih d score cac cs lvl last _ pr h
    · next hrep =>
      have hpr : pr = drawAndFix d score cac cs lvl g := by simpa using h.symm
      rw [hpr]
      simpa using hrep

/-- Every candidate distractor is positive (given a positive answer):
the first formula is only kept when positive, the fallback is only kept
when positive, and the last resort `answer + size + 1` is positive. -/
theorem nextDistractor_pos (answer : ℤ) (num1 num2 size : ℕ) (g : Rng)
    (h : 0 < answer) : 0 < (nextDistractor answer num1 num2 size g).1 := by
  simp only [nextDistractor, randNat, randBool, randCeil3, Rng.next]
  repeat' split
  all_goals try simp only []
  all_goals try simp only [not_or] at *
  all_goals omega

/-- Invariant of the options loop: starting from a duplicate-free list of
at most 4 positive members containing the answer, a successful run
returns a duplicate-free list of exactly 4 positive members containing
the answer. -/
theorem buildOptions_spec :
    ∀ (fuel : ℕ) (answer : ℤ) (num1 num2 : ℕ) (acc : List ℤ) (g : Rng)
      (opts : List ℤ) (g' : Rng),
      acc.Nodup → acc.length ≤ 4 → answer ∈ acc → (∀ x ∈ acc, 0 < x) →
      buildOptions fuel answer num1 num2 acc g = some (opts, g') →
      opts.Nodup ∧ opts.length = 4 ∧ answer ∈ opts ∧ ∀ x ∈ opts, 0 < x := by
  intro fuel
  induction fuel with
  | zero =>
    intro answer num1 num2 acc g opts g' hnd hlen hmem hpos h
    unfold buildOptions at h
    split at h
    · next h4 =>
      obtain ⟨rfl, rfl⟩ : acc = opts ∧ g = g' := by simpa using h
      exact ⟨hnd, by omega, hmem, hpos⟩
    · simp at h
  | succ fuel ih =>
    intro answer num1 num2 acc g opts g' hnd hlen hmem hpos h
    unfold buildOptions at h
    split at h
    · next h4 =>
      obtain ⟨rfl, rfl⟩ : acc = opts ∧ g = g' := by simpa using h
      exact ⟨hnd, by omega, hmem, hpos⟩
    · next h4 =>
      simp only [] at h
      have hanspos : 0 < answer := hpos _ hmem
      by_cases hmemw : (nextDistractor answer num1 num2 acc.length g).1 ∈ acc
      · rw [if_pos hmemw] at h
        exact ih answer num1 num2 acc _ opts g' hnd hlen hmem hpos h
      · rw [if_neg hmemw] at h
        have hwpos := nextDistractor_pos answer num1 num2 acc.length g hanspos
        refine ih answer num1 num2 _ _ opts g' ?_ ?_ ?_ ?_ h
        · exact hnd.append (List.nodup_singleton _) (List.disjoint_singleton.2 hmemw)
        · simp only [List.length_append, List.length_cons, List.length_nil]
          omega
        · simp [hmem]
        · intro x hx
          rcases List.mem_append.1 hx with hx | hx
          · exact hpos x hx
          · have : x = (nextDistractor answer num1 num2 acc.length g).1 := by simpa using hx
            rw [this]
            exact hwpos

/-! ### Claim theorems -/

/-- C1: Every Question produced by `generateQuestion` is well-formed:
its `answer` equals `num1 * num2`, the answer is a member of its
`options`, and `options` has exactly 4 pairwise-distinct, strictly
positive members. -/
theorem generateQuestion_wellFormed (fuel optFuel : ℕ) (d : Difficulty) (score : ℤ)
    (cac cs : ℕ) (lvl : ℤ) (last : Option (ℕ × ℕ)) (g : Rng) (q : Question)
    (h : generateQuestion fuel optFuel d score cac cs lvl last g = some q) :
    q.answer = (q.num1 : ℤ) * (q.num2 : ℤ) ∧ q.answer ∈ q.options ∧
      q.options.length = 4 ∧ q.options.Nodup ∧ ∀ x ∈ q.options, 0 < x := by
  unfold generateQuestion at h
  rw [Option.bind_eq_some] at h
  obtain ⟨pg, hgen, h⟩ := h
  simp only [] at h
  rw [Option.map_eq_some'] at h
  obtain ⟨og, hopt, hq⟩ := h
  obtain ⟨g0, hdraw⟩ := genOperands_exists_draw fuel d score cac cs lvl last g pg hgen
  have hpos1 : 1 ≤ pg.1.1 := by
    rw [← hdraw]; exact (drawAndFix_pos d score cac cs lvl g0).1
  have hpos2 : 1 ≤ pg.1.2 := by
    rw [← hdraw]; exact (drawAndFix_pos d score cac cs lvl g0).2
  have hanspos : (0 : ℤ) < (pg.1.1 : ℤ) * (pg.1.2 : ℤ) :=
    mul_pos (by exact_mod_cast hpos1) (by exact_mod_cast hpos2)
  have hspec := buildOptions_spec optFuel ((pg.1.1 : ℤ) * (pg.1.2 : ℤ)) pg.1.1 pg.1.2
    [(pg.1.1 : ℤ) * (pg.1.2 : ℤ)] pg.2 og.1 og.2 (List.nodup_singleton _) (by simp)
    (by simp) (by simpa using hanspos) hopt
  have hperm := shuffleList_perm og.1 og.2
  subst hq
  refine ⟨rfl, ?_, ?_, ?_, ?_⟩
  · exact hperm.mem_iff.2 hspec.2.2.1
  · rw [hperm.length_eq]
    exact hspec.2.1
  · exact hperm.nodup_iff.2 hspec.1
  · intro x hx
    exact hspec.2.2.2 x (hperm.mem_iff.1 hx)

/-- A concrete identity-stream randomness source used by the witnesses. -/
def rngId : Rng := ⟨fun i => i, 0⟩

/-- The concrete question of the C1 witness run. -/
def qC1 : Question := { num1 := 6, num2 := 7, answer := 42, options := [42, 21, 35, 49] }

theorem generateQuestion_wellFormed_witness :
    qC1.answer = (qC1.num1 : ℤ) * (qC1.num2 : ℤ) ∧ qC1.answer ∈ qC1.options ∧
      qC1.options.length = 4 ∧ qC1.options.Nodup ∧ ∀ x ∈ qC1.options, 0 < x :=
  generateQuestion_wellFormed 5 20 .Hard 0 0 0 5 (some (2, 3)) rngId qC1 (by decide)

/-- C2: for every wrong answer evaluated at score `s`, the penalty is 8
if `s ≥ 930`, else 5 if `s ≥ 800`, else 4 if `s ≥ 700`, else 2, and the
new score is `max 0 (s - penalty)`; consequently the score never becomes
negative under any evaluation. -/
theorem wrongAnswer_penalty (q : Question) (v : ℤ) (s : GState)
    (hna : s.isAnswered = false) (hw : v ≠ q.answer) :
    (handleAnswer q v s).score = max 0 (s.score - getPenalty s.score) ∧
    getPenalty s.score =
      (if s.score ≥ 930 then 8 else if s.score ≥ 800 then 5
       else if s.score ≥ 700 then 4 else 2) ∧
    0 ≤ (handleAnswer q v s).score ∧
    ∀ (w : ℤ) (s' : GState), 0 ≤ s'.score → 0 ≤ (handleAnswer q w s').score := by
  have hsc : (handleAnswer q v s).score = max 0 (s.score - getPenalty s.score) := by
    simp [handleAnswer, hna, hw, evalWrong, applyWrongStreakRule_score]
  refine ⟨hsc, rfl, ?_, ?_⟩
  · rw [hsc]
    exact le_max_left _ _
  · intro w s' hs'
    by_cases ha : s'.isAnswered
    · simpa [handleAnswer, ha] using hs'
    · by_cases hw' : w = q.answer
      · have : (handleAnswer q w s').score = s'.score + 5 := by
          simp [handleAnswer, ha, hw', evalCorrect, applyWrongStreakRule_score]
        rw [this]
        omega
      · have : (handleAnswer q w s').score = max 0 (s'.score - getPenalty s'.score) := by
          simp [handleAnswer, ha, hw', evalWrong, applyWrongStreakRule_score]
        rw [this]
        exact le_max_left _ _

/-- Concrete state of the C2 witness run (spec example: score 995, wrong
answer, penalty 8, new score 987). -/
def sC2 : GState :=
  { score := 995, correctStreak := 3, wrongStreak := 0, correctAnswersCount := 40,
    difficultyLevel := 5, feedback := none, isAnswered := false }

/-- Concrete question of the C2 witness run. -/
def qC2 : Question := { num1 := 9, num2 := 9, answer := 81, options := [81, 72, 90, 63] }

theorem wrongAnswer_penalty_witness :
    ((handleAnswer qC2 80 sC2).score = max 0 (sC2.score - getPenalty sC2.score) ∧
      getPenalty sC2.score =
        (if sC2.score ≥ 930 then 8 else if sC2.score ≥ 800 then 5
         else if sC2.score ≥ 700 then 4 else 2) ∧
      0 ≤ (handleAnswer qC2 80 sC2).score ∧
      ∀ (w : ℤ) (s' : GState), 0 ≤ s'.score → 0 ≤ (handleAnswer qC2 w s').score) ∧
    (handleAnswer qC2 80 sC2).score = 987 :=
  ⟨wrongAnswer_penalty qC2 80 sC2 (by decide) (by decide), by decide⟩

/-- C5: the streak counters are mutually exclusive: every correct
evaluation zeros `wrongStreak` and increments `correctStreak`, every
wrong evaluation zeros `correctStreak` and increments `wrongStreak`, so
after any evaluation exactly one counter is nonzero; both are zero at
session start. -/
theorem streaks_mutually_exclusive (d : Difficulty) (q : Question) (v : ℤ)
    (t : String) (s : GState) (hna : s.isAnswered = false) :
    ((handleAnswer q v s).correctStreak ≠ 0 ∧ (handleAnswer q v s).wrongStreak = 0 ∨
      (handleAnswer q v s).correctStreak = 0 ∧ (handleAnswer q v s).wrongStreak ≠ 0) ∧
    (v = q.answer → (handleAnswer q v s).correctStreak = s.correctStreak + 1 ∧
      (handleAnswer q v s).wrongStreak = 0) ∧
    (v ≠ q.answer → (handleAnswer q v s).correctStreak = 0 ∧
      (handleAnswer q v s).wrongStreak = s.wrongStreak + 1) ∧
    (isBlank t = false →
      ((handleTypedAnswerSubmit q t s).correctStreak ≠ 0 ∧
          (handleTypedAnswerSubmit q t s).wrongStreak = 0 ∨
        (handleTypedAnswerSubmit q t s).correctStreak = 0 ∧
          (handleTypedAnswerSubmit q t s).wrongStreak ≠ 0)) ∧
    (initialState d).correctStreak = 0 ∧ (initialState d).wrongStreak = 0 := by
  refine ⟨?_, ?_, ?_, ?_, rfl, rfl⟩
  · by_cases hv : v = q.answer
    · left
      constructor
      · simp [handleAnswer, hna, hv, evalCorrect, applyWrongStreakRule_correctStreak]
      · simp [handleAnswer, hna, hv, evalCorrect, applyWrongStreakRule_wrongStreak]
    · right
      constructor
      · simp [handleAnswer, hna, hv, evalWrong, applyWrongStreakRule_correctStreak]
      · simp [handleAnswer, hna, hv, evalWrong, applyWrongStreakRule_wrongStreak]
  · intro hv
    constructor
    · simp [handleAnswer, hna, hv, evalCorrect, applyWrongStreakRule_correctStreak]
    · simp [handleAnswer, hna, hv, evalCorrect, applyWrongStreakRule_wrongStreak]
  · intro hv
    constructor
    · simp [handleAnswer, hna, hv, evalWrong, applyWrongStreakRule_correctStreak]
    · simp [handleAnswer, hna, hv, evalWrong, applyWrongStreakRule_wrongStreak]
  · intro hnb
    by_cases hv : parseIntJS t = some q.answer
    · left
      constructor
      · simp [handleTypedAnswerSubmit, hna, hnb, hv, evalCorrect,
          applyWrongStreakRule_correctStreak]
      · simp [handleTypedAnswerSubmit, hna, hnb, hv, evalCorrect,
          applyWrongStreakRule_wrongStreak]
    · right
      constructor
      · simp [handleTypedAnswerSubmit, hna, hnb, hv, evalWrong,
          applyWrongStreakRule_correctStreak]
      · simp [handleTypedAnswerSubmit, hna, hnb, hv, evalWrong,
          applyWrongStreakRule_wrongStreak]

/-- Concrete state of the C5 witness run. -/
def sC5 : GState :=
  { score := 40, correctStreak := 2, wrongStreak := 0, correctAnswersCount := 8,
    difficultyLevel := 0, feedback := none, isAnswered := false }

/-- Concrete question of the C5 witness run. -/
def qC5 : Question := { num1 := 3, num2 := 4, answer := 12, options := [12, 9, 15, 6] }

theorem streaks_mutually_exclusive_witness :
    ((handleAnswer qC5 12 sC5).correctStreak ≠ 0 ∧ (handleAnswer qC5 12 sC5).wrongStreak = 0 ∨
      (handleAnswer qC5 12 sC5).correctStreak = 0 ∧ (handleAnswer qC5 12 sC5).wrongStreak ≠ 0) ∧
    ((12 : ℤ) = qC5.answer → (handleAnswer qC5 12 sC5).correctStreak = sC5.correctStreak + 1 ∧
      (handleAnswer qC5 12 sC5).wrongStreak = 0) ∧
    ((12 : ℤ) ≠ qC5.answer → (handleAnswer qC5 12 sC5).correctStreak = 0 ∧
      (handleAnswer qC5 12 sC5).wrongStreak = sC5.wrongStreak + 1) ∧
    (isBlank "7" = false →
      ((handleTypedAnswerSubmit qC5 "7" sC5).correctStreak ≠ 0 ∧
          (handleTypedAnswerSubmit qC5 "7" sC5).wrongStreak = 0 ∨
        (handleTypedAnswerSubmit qC5 "7" sC5).correctStreak = 0 ∧
          (handleTypedAnswerSubmit qC5 "7" sC5).wrongStreak ≠ 0)) ∧
    (initialState Difficulty.Easy).correctStreak = 0 ∧
      (initialState Difficulty.Easy).wrongStreak = 0 :=
  streaks_mutually_exclusive Difficulty.Easy qC5 12 "7" sC5 (by decide)

/-- C8: `difficultyLevel` starts at 0 for Easy, 2 for Moderate, 5 for
Hard, and is decremented by 1 (floored at 0) exactly when `wrongStreak`
reaches a positive multiple of 3. -/
theorem difficultyLevel_rules (q : Question) (v : ℤ) (s : GState)
    (hna : s.isAnswered = false) (hw : v ≠ q.answer) :
    initialDifficultyLevel Difficulty.Easy = 0 ∧
    initialDifficultyLevel Difficulty.Moderate = 2 ∧
    initialDifficultyLevel Difficulty.Hard = 5 ∧
    (handleAnswer q v s).wrongStreak = s.wrongStreak + 1 ∧
    ((s.wrongStreak + 1) % 3 = 0 →
      (handleAnswer q v s).difficultyLevel = max 0 (s.difficultyLevel - 1)) ∧
    ((s.wrongStreak + 1) % 3 ≠ 0 →
      (handleAnswer q v s).difficultyLevel = s.difficultyLevel) ∧
    (0 ≤ s.difficultyLevel → 0 ≤ (handleAnswer q v s).difficultyLevel) ∧
    ∀ (w : ℤ) (s' : GState), s'.isAnswered = false → w = q.answer →
      (handleAnswer q w s').difficultyLevel = s'.difficultyLevel := by
  have hws : (handleAnswer q v s).wrongStreak = s.wrongStreak + 1 := by
    simp [handleAnswer, hna, hw, evalWrong, applyWrongStreakRule_wrongStreak]
  have hlvl : ∀ h3 : (s.wrongStreak + 1) % 3 = 0,
      (handleAnswer q v s).difficultyLevel = max 0 (s.difficultyLevel - 1) := by
    intro h3
    simp [handleAnswer, hna, hw, evalWrong, applyWrongStreakRule, h3]
  have hlvl' : ∀ _ : (s.wrongStreak + 1) % 3 ≠ 0,
      (handleAnswer q v s).difficultyLevel = s.difficultyLevel := by
    intro h3
    simp [handleAnswer, hna, hw, evalWrong, applyWrongStreakRule, h3]
  refine ⟨rfl, rfl, rfl, hws, hlvl, hlvl', ?_, ?_⟩
  · intro hpos
    by_cases h3 : (s.wrongStreak + 1) % 3 = 0
    · rw [hlvl h3]
      exact le_max_left _ _
    · rw [hlvl' h3]
      exact hpos
  · intro w s' hna' hv
    simp [handleAnswer, hna', hv, evalCorrect, applyWrongStreakRule]

/-- Concrete state of the C8 witness run (third consecutive wrong
answer, so the decrement fires). -/
def sC8 : GState :=
  { score := 30, correctStreak := 0, wrongStreak := 2, correctAnswersCount := 10,
    difficultyLevel := 5, feedback := some (some 30), isAnswered := false }

/-- Concrete question of the C8 witness run. -/
def qC8 : Question := { num1 := 6, num2 := 6, answer := 36, options := [36, 30, 42, 54] }

theorem difficultyLevel_rules_witness :
    (initialDifficultyLevel Difficulty.Easy = 0 ∧
      initialDifficultyLevel Difficulty.Moderate = 2 ∧
      initialDifficultyLevel Difficulty.Hard = 5 ∧
      (handleAnswer qC8 30 sC8).wrongStreak = sC8.wrongStreak + 1 ∧
      ((sC8.wrongStreak + 1) % 3 = 0 →
        (handleAnswer qC8 30 sC8).difficultyLevel = max 0 (sC8.difficultyLevel - 1)) ∧
      ((sC8.wrongStreak + 1) % 3 ≠ 0 →
        (handleAnswer qC8 30 sC8).difficultyLevel = sC8.difficultyLevel) ∧
      (0 ≤ sC8.difficultyLevel → 0 ≤ (handleAnswer qC8 30 sC8).difficultyLevel) ∧
      ∀ (w : ℤ) (s' : GState), s'.isAnswered = false → w = qC8.answer →
        (handleAnswer qC8 w s').difficultyLevel = s'.difficultyLevel) ∧
    (handleAnswer qC8 30 sC8).difficultyLevel = 4 :=
  ⟨difficultyLevel_rules qC8 30 sC8 (by decide) (by decide), by decide⟩

/-- C10: once a question is answered, invoking either answer handler
again is a no-op that leaves the whole state (score, streaks, count,
difficulty level, feedback) unchanged; and any invocation of the
multiple-choice handler leaves the question marked answered, so a second
invocation before the next question is generated is always a no-op. -/
theorem answered_handler_noop (q : Question) (v : ℤ) (t : String) (s : GState)
    (h : s.isAnswered = true) :
    handleAnswer q v s = s ∧ handleTypedAnswerSubmit q t s = s ∧
    ∀ (w : ℤ) (s0 : GState), (handleAnswer q w s0).isAnswered = true := by
  refine ⟨by simp [handleAnswer, h], by simp [handleTypedAnswerSubmit, h], ?_⟩
  intro w s0
  by_cases ha : s0.isAnswered
  · simp [handleAnswer, ha]
  · by_cases hw : w = q.answer
    · simp [handleAnswer, ha, hw, evalCorrect, applyWrongStreakRule_isAnswered]
    · simp [handleAnswer, ha, hw, evalWrong, applyWrongStreakRule_isAnswered]

/-- Concrete answered state of the C10 witness run. -/
def sC10 : GState :=
  { score := 100, correctStreak := 1, wrongStreak := 0, correctAnswersCount := 20,
    difficultyLevel := 2, feedback := none, isAnswered := true }

/-- Concrete question of the C10 witness run. -/
def qC10 : Question := { num1 := 4, num2 := 5, answer := 20, options := [20, 16, 24, 25] }

theorem answered_handler_noop_witness :
    handleAnswer qC10 16 sC10 = sC10 ∧ handleTypedAnswerSubmit qC10 "20" sC10 = sC10 ∧
    ∀ (w : ℤ) (s0 : GState), (handleAnswer qC10 w s0).isAnswered = true :=
  answered_handler_noop qC10 16 "20" sC10 (by decide)

/-- C3: no two consecutively generated questions share the same
unordered operand pair: a generated question's pair differs from the
previous pair both directly and swapped. -/
theorem consecutive_questions_differ (fuel optFuel : ℕ) (d : Difficulty) (score : ℤ)
    (cac cs : ℕ) (lvl : ℤ) (p1 p2 : ℕ) (g : Rng) (q : Question)
    (h : generateQuestion fuel optFuel d score cac cs lvl (some (p1, p2)) g = some q) :
    ¬((q.num1 = p1 ∧ q.num2 = p2) ∨ (q.num1 = p2 ∧ q.num2 = p1)) := by
  unfold generateQuestion at h
  rw [Option.bind_eq_some] at h
  obtain ⟨pg, hgen, h⟩ := h
  simp only [] at h
  rw [Option.map_eq_some'] at h
  obtain ⟨og, hopt, hq⟩ := h
  have hrep := genOperands_not_repeat fuel d score cac cs lvl (some (p1, p2)) g pg hgen
  have hq1 : q.num1 = pg.1.1 := by rw [← hq]
  have hq2 : q.num2 = pg.1.2 := by rw [← hq]
  rw [hq1, hq2]
  simpa [isRepeatOf] using hrep

/-- The concrete question of the C3 witness run (previous pair (6,7),
and the first candidate drawn by the stream is exactly (6,7), so the
repetition guard visibly rerolls). -/
def qC3 : Question := { num1 := 8, num2 := 9, answer := 72, options := [81, 99, 72, 63] }

theorem consecutive_questions_differ_witness :
    ¬((qC3.num1 = 6 ∧ qC3.num2 = 7) ∨ (qC3.num1 = 7 ∧ qC3.num2 = 6)) :=
  consecutive_questions_differ 5 20 .Hard 0 0 0 5 6 7 rngId qC3 (by decide)

/-- C4: for every state with score ≥ 100, no generated question contains
an operand equal to 1: the post-processing replaces an operand that
landed on 1 by a draw from `{2,3,4}`. -/
theorem no_operand_one_high_score (fuel optFuel : ℕ) (d : Difficulty) (score : ℤ)
    (cac cs : ℕ) (lvl : ℤ) (last : Option (ℕ × ℕ)) (g : Rng) (q : Question)
    (hs : score ≥ 100)
    (h : generateQuestion fuel optFuel d score cac cs lvl last g = some q) :
    q.num1 ≠ 1 ∧ q.num2 ≠ 1 ∧
      ∀ g0 : Rng, (replaceOne 1 g0).1 ∈ ([2, 3, 4] : List ℕ) := by
  unfold generateQuestion at h
  rw [Option.bind_eq_some] at h
  obtain ⟨pg, hgen, h⟩ := h
  simp only [] at h
  rw [Option.map_eq_some'] at h
  obtain ⟨og, hopt, hq⟩ := h
  obtain ⟨g0, hdraw⟩ := genOperands_exists_draw fuel d score cac cs lvl last g pg hgen
  have hq1 : q.num1 = pg.1.1 := by rw [← hq]
  have hq2 : q.num2 = pg.1.2 := by rw [← hq]
  refine ⟨?_, ?_, fun g1 => replaceOne_one_mem g1⟩
  · rw [hq1, ← hdraw]
    exact (fixOnes_ne_one _ _ hs).1
  · rw [hq2, ← hdraw]
    exact (fixOnes_ne_one _ _ hs).2

/-- The concrete question of the C4 witness run (Easy tier at score 100;
the raw draw would have allowed a 1 but the result has none). -/
def qC4 : Question := { num1 := 2, num2 := 2, answer := 4, options := [12, 4, 8, 1] }

theorem no_operand_one_high_score_witness :
    qC4.num1 ≠ 1 ∧ qC4.num2 ≠ 1 ∧
      ∀ g0 : Rng, (replaceOne 1 g0).1 ∈ ([2, 3, 4] : List ℕ) :=
  no_operand_one_high_score 5 20 .Easy 100 0 0 0 none rngId qC4 (by decide) (by decide)

/-- C7: for every state with score ≥ 800, regardless of the selected
tier, the rule cascade takes the score-override branch: one operand from
`{6,7,8,9}` and the other in `[6,12]`, in one of the two orders. -/
theorem score_override_rule (d : Difficulty) (score : ℤ) (cac cs : ℕ) (lvl : ℤ)
    (g : Rng) (hs : score ≥ 800) :
    drawOperands d score cac cs lvl g = highScoreDraw g ∧
    (((drawOperands d score cac cs lvl g).1.1 ∈ ([6,7,8,9] : List ℕ) ∧
        6 ≤ (drawOperands d score cac cs lvl g).1.2 ∧
        (drawOperands d score cac cs lvl g).1.2 ≤ 12) ∨
      ((drawOperands d score cac cs lvl g).1.2 ∈ ([6,7,8,9] : List ℕ) ∧
        6 ≤ (drawOperands d score cac cs lvl g).1.1 ∧
        (drawOperands d score cac cs lvl g).1.1 ≤ 12)) := by
  have he : drawOperands d score cac cs lvl g = highScoreDraw g := by
    unfold drawOperands
    rw [if_pos hs]
  refine ⟨he, ?_⟩
  rw [he]
  exact highScoreDraw_spec g

theorem score_override_rule_witness :
    drawOperands Difficulty.Easy 800 0 0 0 rngId = highScoreDraw rngId ∧
    (((drawOperands Difficulty.Easy 800 0 0 0 rngId).1.1 ∈ ([6,7,8,9] : List ℕ) ∧
        6 ≤ (drawOperands Difficulty.Easy 800 0 0 0 rngId).1.2 ∧
        (drawOperands Difficulty.Easy 800 0 0 0 rngId).1.2 ≤ 12) ∨
      ((drawOperands Difficulty.Easy 800 0 0 0 rngId).1.2 ∈ ([6,7,8,9] : List ℕ) ∧
        6 ≤ (drawOperands Difficulty.Easy 800 0 0 0 rngId).1.1 ∧
        (drawOperands Difficulty.Easy 800 0 0 0 rngId).1.1 ≤ 12)) :=
  score_override_rule Difficulty.Easy 800 0 0 0 rngId (by decide)

/-- C6: in the fallback rule, with base 4/7/10 per tier and
`effectiveLevel = difficultyLevel + floor(correctStreak/3) +
(2 if score ≥ 500)`, `num1` is drawn from `[1, base+effectiveLevel]`,
`num2` from `[1, base+max 0 (effectiveLevel-2)]`, and when both land on
1, `num2` is redrawn from `[2,10]`; the fallback is the branch taken for
the Easy tier past 30 correct answers (below the score override). -/
theorem fallback_rule_ranges (d : Difficulty) (score : ℤ) (cac cs : ℕ) (lvl : ℤ)
    (g : Rng) (hlvl : 0 ≤ lvl) :
    (1 ≤ (fallbackDraw d score cs lvl g).1.1 ∧
      ((fallbackDraw d score cs lvl g).1.1 : ℤ) ≤
        baseMaxNum d + effectiveLevel lvl cs score) ∧
    ((1 ≤ (fallbackDraw d score cs lvl g).1.2 ∧
        ((fallbackDraw d score cs lvl g).1.2 : ℤ) ≤
          baseMaxNum d + max 0 (effectiveLevel lvl cs score - 2)) ∨
      (2 ≤ (fallbackDraw d score cs lvl g).1.2 ∧
        (fallbackDraw d score cs lvl g).1.2 ≤ 10)) ∧
    ((fallbackDraw d score cs lvl g).1.1 = 1 → (fallbackDraw d score cs lvl g).1.2 ≠ 1) ∧
    baseMaxNum Difficulty.Easy = 4 ∧ baseMaxNum Difficulty.Moderate = 7 ∧
    baseMaxNum Difficulty.Hard = 10 ∧
    effectiveLevel lvl cs score =
      lvl + ((cs / 3 : ℕ) : ℤ) + (if score ≥ 500 then 2 else 0) ∧
    (score < 800 → d = Difficulty.Easy → 30 ≤ cac →
      drawOperands d score cac cs lvl g = fallbackDraw d score cs lvl g) := by
  have heff : 0 ≤ effectiveLevel lvl cs score := by
    unfold effectiveLevel
    split <;> omega
  have hbase : 4 ≤ baseMaxNum d := by
    cases d <;> simp [baseMaxNum]
  have hmax : 0 ≤ max 0 (effectiveLevel lvl cs score - 2) := le_max_left _ _
  have htn1 : (((baseMaxNum d + effectiveLevel lvl cs score).toNat : ℤ)) =
      baseMaxNum d + effectiveLevel lvl cs score :=
    Int.toNat_of_nonneg (by omega)
  have htn2 : (((baseMaxNum d + max 0 (effectiveLevel lvl cs score - 2)).toNat : ℤ)) =
      baseMaxNum d + max 0 (effectiveLevel lvl cs score - 2) :=
    Int.toNat_of_nonneg (by omega)
  have hpos1 : 0 < (baseMaxNum d + effectiveLevel lvl cs score).toNat := by omega
  have hpos2 : 0 < (baseMaxNum d + max 0 (effectiveLevel lvl cs score - 2)).toNat := by
    omega
  have hr1 := Nat.mod_lt (g.src g.pos) hpos1
  have hr2 := Nat.mod_lt (g.src (g.pos + 1)) hpos2
  have hr2' := Nat.mod_lt (g.src (g.pos + 1 + 1)) (show 0 < 9 by norm_num)
  refine ⟨?_, ?_, ?_, rfl, rfl, rfl, rfl, ?_⟩
  · simp only [fallbackDraw, randNat, Rng.next]
    split <;> (simp only []; constructor)
    · omega
    · omega
    · omega
    · omega
  · simp only [fallbackDraw, randNat, Rng.next]
    split
    · right
      simp only []
      omega
    · left
      simp only []
      omega
  · simp only [fallbackDraw, randNat, Rng.next]
    split
    · simp only []
      intro _
      omega
    · next hne =>
      push_neg at hne
      simp only []
      exact hne
  · intro hs800 hd hcac
    subst hd
    unfold drawOperands
    rw [if_neg (by omega : ¬score ≥ 800)]
    rw [if_neg (by decide : ¬(Difficulty.Easy = Difficulty.Hard))]
    rw [if_neg (by decide : ¬(Difficulty.Easy = Difficulty.Moderate))]
    rw [if_neg (fun hco => absurd hco.2 (by omega))]

theorem fallback_rule_ranges_witness :
    (1 ≤ (fallbackDraw Difficulty.Easy 0 0 0 rngId).1.1 ∧
      ((fallbackDraw Difficulty.Easy 0 0 0 rngId).1.1 : ℤ) ≤
        baseMaxNum Difficulty.Easy + effectiveLevel 0 0 0) ∧
    ((1 ≤ (fallbackDraw Difficulty.Easy 0 0 0 rngId).1.2 ∧
        ((fallbackDraw Difficulty.Easy 0 0 0 rngId).1.2 : ℤ) ≤
          baseMaxNum Difficulty.Easy + max 0 (effectiveLevel 0 0 0 - 2)) ∨
      (2 ≤ (fallbackDraw Difficulty.Easy 0 0 0 rngId).1.2 ∧
        (fallbackDraw Difficulty.Easy 0 0 0 rngId).1.2 ≤ 10)) ∧
    ((fallbackDraw Difficulty.Easy 0 0 0 rngId).1.1 = 1 →
      (fallbackDraw Difficulty.Easy 0 0 0 rngId).1.2 ≠ 1) ∧
    baseMaxNum Difficulty.Easy = 4 ∧ baseMaxNum Difficulty.Moderate = 7 ∧
    baseMaxNum Difficulty.Hard = 10 ∧
    effectiveLevel 0 0 0 = 0 + ((0 / 3 : ℕ) : ℤ) + (if (0:ℤ) ≥ 500 then 2 else 0) ∧
    ((0:ℤ) < 800 → Difficulty.Easy = Difficulty.Easy → 30 ≤ 35 →
      drawOperands Difficulty.Easy 0 35 0 0 rngId = fallbackDraw Difficulty.Easy 0 0 0 rngId) :=
  fallback_rule_ranges Difficulty.Easy 0 35 0 0 rngId (by decide)

/-- C9 (amended): submitting malformed non-numeric text that is not
blank never raises (the handler is total) and never compares equal to
the numeric answer, so it is evaluated as a wrong answer: penalty,
streak update, and `NaN` recorded as the wrong selection. -/
theorem typedSubmit_malformed_wrong (q : Question) (t : String) (s : GState)
    (hna : s.isAnswered = false) (hnb : isBlank t = false)
    (hparse : parseIntJS t = none) :
    parseIntJS t ≠ some q.answer ∧
    (handleTypedAnswerSubmit q t s).score = max 0 (s.score - getPenalty s.score) ∧
    (handleTypedAnswerSubmit q t s).correctStreak = 0 ∧
    (handleTypedAnswerSubmit q t s).wrongStreak = s.wrongStreak + 1 ∧
    (handleTypedAnswerSubmit q t s).feedback = some none ∧
    (handleTypedAnswerSubmit q t s).isAnswered = true := by
  have hne : parseIntJS t ≠ some q.answer := by
    rw [hparse]
    simp
  refine ⟨hne, ?_, ?_, ?_, ?_, ?_⟩
  · simp [handleTypedAnswerSubmit, hna, hnb, hne, evalWrong, applyWrongStreakRule_score]
  · simp [handleTypedAnswerSubmit, hna, hnb, hne, evalWrong,
      applyWrongStreakRule_correctStreak]
  · simp [handleTypedAnswerSubmit, hna, hnb, hne, evalWrong,
      applyWrongStreakRule_wrongStreak]
  · simp [handleTypedAnswerSubmit, hna, hnb, hne, hparse, evalWrong,
      applyWrongStreakRule_feedback]
  · simp [handleTypedAnswerSubmit, hna, hnb, hne, evalWrong,
      applyWrongStreakRule_isAnswered]

/-- Concrete question of the C9 counterexample. -/
def qC9 : Question := { num1 := 9, num2 := 8, answer := 72, options := [72, 64, 80, 63] }

/-- Concrete state of the C9 counterexample (score 910, so the typed
input path is active and a wrong answer would cost 5). -/
def sC9 : GState :=
  { score := 910, correctStreak := 0, wrongStreak := 0, correctAnswersCount := 50,
    difficultyLevel := 0, feedback := none, isAnswered := false }

/-- C9 counterexample: a whitespace-only string is non-numeric text, yet
submitting it is a no-op (the `!typedAnswer.trim()` guard returns
early): no penalty is applied and no streak is updated, contradicting
the claim as stated. -/
theorem typedSubmit_blank_counterexample :
    isBlank " " = true ∧ parseIntJS " " = none ∧
    handleTypedAnswerSubmit qC9 " " sC9 = sC9 ∧
    (handleTypedAnswerSubmit qC9 " " sC9).wrongStreak ≠ sC9.wrongStreak + 1 ∧
    (handleTypedAnswerSubmit qC9 " " sC9).score ≠ max 0 (sC9.score - getPenalty sC9.score) := by
  decide

/-- Concrete question of the C9 witness run. -/
def qC9w : Question := { num1 := 8, num2 := 8, answer := 64, options := [64, 56, 72, 48] }

/-- Concrete state of the C9 witness run. -/
def sC9w : GState :=
  { score := 920, correctStreak := 2, wrongStreak := 0, correctAnswersCount := 60,
    difficultyLevel := 1, feedback := none, isAnswered := false }

theorem typedSubmit_malformed_wrong_witness :
    (isBlank "abc" = false ∧ parseIntJS "abc" = none) ∧
    (parseIntJS "abc" ≠ some qC9w.answer ∧
      (handleTypedAnswerSubmit qC9w "abc" sC9w).score =
        max 0 (sC9w.score - getPenalty sC9w.score) ∧
      (handleTypedAnswerSubmit qC9w "abc" sC9w).correctStreak = 0 ∧
      (handleTypedAnswerSubmit qC9w "abc" sC9w).wrongStreak = sC9w.wrongStreak + 1 ∧
      (handleTypedAnswerSubmit qC9w "abc" sC9w).feedback = some none ∧
      (handleTypedAnswerSubmit qC9w "abc" sC9w).isAnswered = true) :=
  ⟨⟨by decide, by decide⟩,
    typedSubmit_malformed_wrong qC9w "abc" sC9w (by decide) (by decide) (by decide)⟩

end RobuxMul
